import Mathlib

/-
  Shallow embedding of the hashq resource-pool package (Go).

  The embedded module is the variant whose core consists of:
    const incomeFreqTotal, type HashQ, type Resource, type Speed,
    func New, HashQ.Clean, HashQ.genHash, HashQ.Get,
    Speed.inc, Speed.Freq, Speed.Check, Resource.Clean, Resource.TryOpen.

  Modelling conventions:
  - Go int64 times (UnixNano) and durations are Lean Int (nanoseconds);
    overflow is immaterial for these quantities, so no wrap is applied.
  - Go Shared interface values are nilable: they are modelled as Option sigma
    for an abstract element type sigma; none is the nil interface value.
  - The caller-supplied Open method is an explicit function parameter
    openFn : sigma -> Option sigma x Option epsilon, returning the new Shared
    value and the error value (none = nil error).
  - Go integer division and remainder truncate toward zero: Int.tdiv, Int.tmod.
    A Go division or remainder whose divisor is zero panics at run time;
    the embedding returns none (Option) on exactly those paths.
  - Indexing a Go slice out of range panics; modelled as none.
  - Each call to time.Now() inside a function body is an explicit Int argument.
  - sync.Once is the Boolean field openFired: Do runs the closure if and only
    if the flag is still false, then sets it (the sequential semantics of Once).
  - Calls of the Close method of a handle are recorded as an event list
    (the handle values Close was invoked on), since Close returns nothing.
  - Logging (loggerDebug/loggerError, Stat, Debug) has no model state.
-/

namespace Hashq

/-- Error values produced by the package (fmt.Errorf messages in the source). -/
inductive GoErr where
  /-- message: can not initialize using nil pointer -/
  | nilPointer : GoErr
  /-- message: bad size of shared array -/
  | badSize : GoErr
  /-- message: bad parameter for frequency correction -/
  | badSpeedCheck : GoErr
  /-- message: configuration is not initialized -/
  | notInitialized : GoErr
  deriving DecidableEq, Repr

/-- constant incomeFreqTotal int64 = 1000000 (the seeded default period). -/
def incomeFreqTotal : Int := 1000000

/-- Speed: Sum float64 (always an integral count, modelled as Nat);
    Start, Last int64 UnixNano marks; incomeFreq int64 (the estimate,
    a field of Speed in this variant); speedCheck uint64 (the stride). -/
structure Speed where
  Sum : Nat
  Start : Int
  Last : Int
  incomeFreq : Int
  speedCheck : Nat
  deriving DecidableEq, Repr

/-- func (s *Speed) inc(): s.Sum, s.Last = s.Sum+1, time.Now().UnixNano(). -/
def Speed.inc (s : Speed) (now : Int) : Speed :=
  { s with Sum := s.Sum + 1, Last := now }

/-- func (s *Speed) Freq() int64: return (s.Last - s.Start) / int64(s.Sum).
    The zero-divisor guard is commented out in the source, so a call with
    Sum = 0 divides by zero and panics: modelled as none. -/
def Speed.Freq (s : Speed) : Option Int :=
  if (s.Sum : Int) = 0 then none
  else some (Int.tdiv (s.Last - s.Start) (s.Sum : Int))

/-- func (s *Speed) Check() bool: return (uint64(s.Sum) % s.speedCheck) == 1.
    A zero modulus panics in Go: modelled as none. -/
def Speed.Check (s : Speed) : Option Bool :=
  if s.speedCheck = 0 then none
  else some (s.Sum % s.speedCheck = 1)

/-- Resource wraps one shared handle. Field openFired is the state of the
    sync.Once field named open in the source; modified is the time.Time
    field (Int nanoseconds, zero value 0). -/
structure Resource (σ : Type) where
  Pt : Option σ
  active : Bool
  openFired : Bool
  modified : Int
  deriving DecidableEq, Repr

/-- func (res *Resource) TryOpen() (Shared, error).
    The closure assigns res.Pt, err = res.Pt.Open() and res.active = true,
    and res.open.Do runs it only if the Once has not fired; err is a fresh
    local on every call, so a call after the first returns a nil error.
    Result: (updated resource, returned Shared, returned error, whether the
    closure ran). Calling Open on a nil interface panics: none. -/
def Resource.tryOpen (openFn : σ → Option σ × Option ε) (res : Resource σ) :
    Option (Resource σ × (Option σ × Option ε × Bool)) :=
  if res.openFired then
    some (res, (res.Pt, none, false))
  else
    match res.Pt with
    | none => none
    | some p =>
      let r := openFn p
      some ({ res with Pt := r.1, active := true, openFired := true },
            (r.1, r.2, true))

/-- Iterated TryOpen: n sequential calls on one resource, collecting each
    call result (returned Shared, returned error, whether Open ran). -/
def Resource.tryOpenTrace (openFn : σ → Option σ × Option ε) :
    Nat → Resource σ → Option (Resource σ × List (Option σ × Option ε × Bool))
  | 0, res => some (res, [])
  | n + 1, res =>
    match Resource.tryOpen openFn res with
    | none => none
    | some (res1, out) =>
      match Resource.tryOpenTrace openFn n res1 with
      | none => none
      | some (resF, outs) => some (resF, out :: outs)

/-- HashQ is the pool: slot array, template, slot count, sweep cadence,
    idle threshold and the Speed estimator. -/
structure HashQ (σ : Type) where
  sharedMap : List (Resource σ)
  emptyPt : Option σ
  maxShared : Int
  cleanPeriod : Int
  olderPeriod : Int
  curSpeed : Speed
  deriving DecidableEq, Repr

/-- The Go zero value of HashQ (the value the constructor returns on failure). -/
def HashQ.zero : HashQ σ :=
  { sharedMap := [], emptyPt := none, maxShared := 0,
    cleanPeriod := 0, olderPeriod := 0,
    curSpeed := { Sum := 0, Start := 0, Last := 0, incomeFreq := 0, speedCheck := 0 } }

/-- func (hq *HashQ) Len() int. -/
def HashQ.Len (hq : HashQ σ) : Nat := hq.sharedMap.length

/-- func New(share Shared, size int64, spch uint64, cleaner, older time.Duration).
    Validation order follows the source switch: nil share, size < 1, spch < 1.
    On failure the pair (zero HashQ, error) is returned; on success the pool
    holds size fresh Resource values whose Pt is the template.
    initTime is the time.Now().UnixNano() taken in the body. -/
def New (share : Option σ) (size : Int) (spch : Nat) (cleaner older : Int)
    (initTime : Int) : HashQ σ × Option GoErr :=
  match share with
  | none => (HashQ.zero, some GoErr.nilPointer)
  | some _ =>
    if size < 1 then (HashQ.zero, some GoErr.badSize)
    else if spch < 1 then (HashQ.zero, some GoErr.badSpeedCheck)
    else
      ({ sharedMap := List.replicate size.toNat
           { Pt := share, active := false, openFired := false, modified := 0 },
         emptyPt := share, maxShared := size,
         cleanPeriod := cleaner, olderPeriod := older,
         curSpeed := { Sum := 0, Start := initTime, Last := initTime,
                       incomeFreq := incomeFreqTotal, speedCheck := spch } },
       none)

/-- func (hq *HashQ) genHash() int64:
    curSpeed.inc(); if curSpeed.Check() and Freq() != 0 then the estimate is
    overwritten; finally idx = (time.Now().UnixNano() / incomeFreq) % maxShared.
    tInc is the now of inc, tIdx the now of the index line. Panicking paths
    (zero stride modulus, zero divisor) yield none. -/
def HashQ.genHash (hq : HashQ σ) (tInc tIdx : Int) : Option (HashQ σ × Int) :=
  let s1 := hq.curSpeed.inc tInc
  match s1.Check with
  | none => none
  | some b =>
    match (if b then
             match s1.Freq with
             | none => none
             | some f => some (if f ≠ 0 then { s1 with incomeFreq := f } else s1)
           else some s1) with
    | none => none
    | some s2 =>
      if s2.incomeFreq = 0 ∨ hq.maxShared = 0 then none
      else some ({ hq with curSpeed := s2 },
                 Int.tmod (Int.tdiv tIdx s2.incomeFreq) hq.maxShared)

/-- func (hq *HashQ) Get() (*Resource, error).
    A nil receiver is the none case of the Option argument; a pool of zero
    length fails with the not-initialized error; otherwise the slot at the
    genHash index is returned. An out-of-range index would panic: none. -/
def Get (hqOpt : Option (HashQ σ)) (tInc tIdx : Int) :
    Option (Option (HashQ σ) × Except GoErr (Resource σ)) :=
  match hqOpt with
  | none => some (none, Except.error GoErr.notInitialized)
  | some hq =>
    if hq.Len = 0 then some (some hq, Except.error GoErr.notInitialized)
    else
      match hq.genHash tInc tIdx with
      | none => none
      | some (hq1, idx) =>
        if h : 0 ≤ idx ∧ idx.toNat < hq1.sharedMap.length then
          some (some hq1, Except.ok (hq1.sharedMap.get ⟨idx.toNat, h.2⟩))
        else none

/-- func (res *Resource) Clean(hq *HashQ, i int): res.Pt.Close();
    res.Pt, res.open, res.active = hq.emptyPt, sync.Once{}, false; res.touch().
    Calling Close on a nil interface handle panics: none. Otherwise the
    result is the reset resource and the handle Close was invoked on. -/
def Resource.cleanRes (emptyPt : Option σ) (now : Int) (res : Resource σ) :
    Option (Resource σ × σ) :=
  match res.Pt with
  | none => none
  | some p =>
    some ({ Pt := emptyPt, active := false, openFired := false,
            modified := now }, p)

/-- func (hq *HashQ) Clean(): every slot that is active and idle longer than
    olderPeriod is reset through Resource.Clean. Returns the new slot list
    and the handles Close was invoked on, in slot order; none when some
    eviction panics on a nil handle. -/
def cleanList (emptyPt : Option σ) (older now : Int) :
    List (Resource σ) → Option (List (Resource σ) × List σ)
  | [] => some ([], [])
  | res :: rest =>
    if res.active = true ∧ now - res.modified > older then
      match Resource.cleanRes emptyPt now res with
      | none => none
      | some (r, ev) =>
        match cleanList emptyPt older now rest with
        | none => none
        | some (rest1, evs) => some (r :: rest1, ev :: evs)
    else
      match cleanList emptyPt older now rest with
      | none => none
      | some (rest1, evs) => some (res :: rest1, evs)

/-- HashQ.Clean of the source (no forced flag), lifted to the pool. -/
def HashQ.CleanSweep (hq : HashQ σ) (now : Int) :
    Option (HashQ σ × List σ) :=
  match cleanList hq.emptyPt hq.olderPeriod now hq.sharedMap with
  | none => none
  | some (l, evs) => some ({ hq with sharedMap := l }, evs)

/-- Modelled from the spec: HashQ.Clean with a forced flag. The variant whose
    Clean method takes a Boolean is exercised by the repository tests
    (hq.Clean(false)) but its implementation is absent from the sources;
    per the spec it `iterates every slot; for each slot that is active and
    (forced is true OR its idle time exceeds idleThreshold), evicts it`,
    each eviction being the per-slot reset of Resource.Clean (including its
    panic on a nil handle). -/
def cleanForcedList (emptyPt : Option σ) (older : Int) (forced : Bool)
    (now : Int) :
    List (Resource σ) → Option (List (Resource σ) × List σ)
  | [] => some ([], [])
  | res :: rest =>
    if res.active = true ∧ (forced = true ∨ now - res.modified > older) then
      match Resource.cleanRes emptyPt now res with
      | none => none
      | some (r, ev) =>
        match cleanForcedList emptyPt older forced now rest with
        | none => none
        | some (rest1, evs) => some (r :: rest1, ev :: evs)
    else
      match cleanForcedList emptyPt older forced now rest with
      | none => none
      | some (rest1, evs) => some (res :: rest1, evs)

/-- Modelled from the spec: the pool-level Clean(forced). -/
def HashQ.CleanForced (hq : HashQ σ) (forced : Bool) (now : Int) :
    Option (HashQ σ × List σ) :=
  match cleanForcedList hq.emptyPt hq.olderPeriod forced now hq.sharedMap with
  | none => none
  | some (l, evs) => some ({ hq with sharedMap := l }, evs)

/-! Concrete instances used by counterexamples and witnesses. -/

/-- An Open implementation that always fails: it returns a fresh handle
    together with an error (as the Connection.Open of the tests does when
    waitError is set). -/
def failOpen : Unit → Option Unit × Option Unit := fun _ => (some (), some ())

/-- An Open implementation that succeeds with a fresh handle. -/
def okOpen : Unit → Option Unit × Option Unit := fun _ => (some (), none)

/-- A freshly constructed slot: template handle, never opened. -/
def freshRes : Resource Unit :=
  { Pt := some (), active := false, openFired := false, modified := 0 }

/-- The slot after its first TryOpen through failOpen. -/
def failedRes : Resource Unit :=
  { Pt := some (), active := true, openFired := true, modified := 0 }

/-! Helper lemmas about the slot state machine. -/

theorem tryOpen_of_fired (f : σ → Option σ × Option ε) (res : Resource σ)
    (h : res.openFired = true) :
    Resource.tryOpen f res = some (res, (res.Pt, none, false)) := by
  simp [Resource.tryOpen, h]

theorem tryOpenTrace_of_fired (f : σ → Option σ × Option ε) (n : Nat)
    (res : Resource σ) (h : res.openFired = true) :
    Resource.tryOpenTrace f n res =
      some (res, List.replicate n (res.Pt, none, false)) := by
  induction n with
  | zero => simp [Resource.tryOpenTrace]
  | succ n ih =>
    simp [Resource.tryOpenTrace, tryOpen_of_fired f res h, ih,
      List.replicate_succ]

theorem tryOpen_of_fresh (f : σ → Option σ × Option ε) (res : Resource σ)
    (p : σ) (hO : res.openFired = false) (hP : res.Pt = some p) :
    Resource.tryOpen f res =
      some ({ res with Pt := (f p).1, active := true, openFired := true },
            ((f p).1, (f p).2, true)) := by
  simp [Resource.tryOpen, hO, hP]

/-- C1 counterexample. The claim states that after a failed first TryOpen of
    a generation the slot is not marked active and every later TryOpen of the
    generation returns the same cached error. At the concrete input failOpen
    (Open fails with error e = unit) and freshRes: the first call returns the
    error yet marks the slot active (so the claimed active = false is wrong),
    and the second call returns a nil error, not the cached one. -/
theorem C1_counterexample :
    Resource.tryOpen failOpen freshRes =
      some (failedRes, (some (), some (), true))
    ∧ ¬ failedRes.active = false
    ∧ Resource.tryOpen failOpen failedRes =
      some (failedRes, (some (), none, false))
    ∧ ¬ (some (), none, false).2.1 = (some () : Option Unit) := by
  decide

/-- C1 (amended): if the first TryOpen call of a generation fails (Open
    returns handle q and error e), the slot IS marked active, its handle
    field is set to q, and the call returns (q, e); every subsequent TryOpen
    call in the same generation invokes Open no further time and returns the
    stored handle q with a nil error: the error is not cached. -/
theorem C1_failed_open_not_retried (f : σ → Option σ × Option ε)
    (res : Resource σ) (p : σ) (q : Option σ) (e : ε)
    (hO : res.openFired = false) (hP : res.Pt = some p)
    (hE : f p = (q, some e)) :
    Resource.tryOpen f res =
      some ({ res with Pt := q, active := true, openFired := true },
            (q, some e, true))
    ∧ ({ res with Pt := q, active := true, openFired := true } :
        Resource σ).active = true
    ∧ ∀ n, Resource.tryOpenTrace f n
        { res with Pt := q, active := true, openFired := true } =
      some ({ res with Pt := q, active := true, openFired := true },
            List.replicate n (q, none, false)) := by
  refine ⟨?_, rfl, ?_⟩
  · rw [tryOpen_of_fresh f res p hO hP, hE]
  · intro n
    exact tryOpenTrace_of_fired f n _ rfl

/-- C1 witness: the amended theorem applied at failOpen and freshRes. -/
theorem C1_witness :
    Resource.tryOpen failOpen freshRes =
      some (failedRes, (some (), some (), true))
    ∧ failedRes.active = true
    ∧ Resource.tryOpenTrace failOpen 2 failedRes =
      some (failedRes, List.replicate 2 (some (), none, false)) := by
  have h := C1_failed_open_not_retried failOpen freshRes () (some ()) ()
    (by decide) (by decide) (by decide)
  exact ⟨h.1, h.2.1, h.2.2 2⟩

/-- C2: in one generation (the slot still has its never-fired trigger, as
    after construction or an eviction, and a non-nil handle), a sequence of
    n + 1 TryOpen calls runs Open exactly on the first call: the trace shows
    one invocation flag true followed by n flags false, every later call
    returns the same handle value (f p).1 that the first call stored, and
    the run-flag count over the whole trace is one. -/
theorem C2_open_at_most_once (f : σ → Option σ × Option ε)
    (res : Resource σ) (p : σ) (n : Nat)
    (hO : res.openFired = false) (hP : res.Pt = some p) :
    Resource.tryOpenTrace f (n + 1) res =
      some ({ res with Pt := (f p).1, active := true, openFired := true },
            ((f p).1, (f p).2, true) ::
              List.replicate n ((f p).1, none, false))
    ∧ (List.map (fun o => o.2.2)
        (((f p).1, (f p).2, true) ::
          List.replicate n ((f p).1, none, false))).count true = 1 := by
  constructor
  · have h1 := tryOpen_of_fresh f res p hO hP
    have h2 := tryOpenTrace_of_fired f n
      { res with Pt := (f p).1, active := true, openFired := true } rfl
    simp [Resource.tryOpenTrace, h1, h2]
  · simp [List.count_replicate]

/-- C2 witness: three TryOpen calls on a fresh slot with a succeeding Open. -/
theorem C2_witness :
    Resource.tryOpenTrace okOpen 3 freshRes =
      some (failedRes,
            (some (), none, true) :: List.replicate 2 (some (), none, false))
    ∧ (List.map (fun o => o.2.2)
        ((some (), none, true) ::
          List.replicate 2 ((some () : Option Unit), (none : Option Unit),
            false))).count true = 1 := by
  have h := C2_open_at_most_once okOpen freshRes () 2 (by decide) (by decide)
  exact h

theorem get_of_len_zero (hq : HashQ σ) (t1 t2 : Int) (h : hq.sharedMap = []) :
    Get (some hq) t1 t2 = some (some hq, Except.error GoErr.notInitialized) := by
  simp [Get, HashQ.Len, h]

/-- C3: New(share, size, spch, cleaner, older) fails exactly when share is
    nil, size < 1 or spch < 1; on success the pool has exactly size slots,
    each the template handle with active false and the trigger unfired; on
    failure the returned pool is the zero value with no slots, and Get on it
    fails with the not-initialized error. -/
theorem C3_new_validation (share : Option σ) (size : Int) (spch : Nat)
    (cleaner older initTime t1 t2 : Int) :
    ((New share size spch cleaner older initTime).2 = none ↔
      share ≠ none ∧ 1 ≤ size ∧ 1 ≤ spch)
    ∧ ((New share size spch cleaner older initTime).2 = none →
        ((New share size spch cleaner older initTime).1.sharedMap.length : Int)
            = size
        ∧ ∀ r ∈ (New share size spch cleaner older initTime).1.sharedMap,
            r = { Pt := share, active := false, openFired := false,
                  modified := 0 })
    ∧ ((New share size spch cleaner older initTime).2 ≠ none →
        (New share size spch cleaner older initTime).1 = HashQ.zero
        ∧ Get (some (New share size spch cleaner older initTime).1) t1 t2 =
            some (some (New share size spch cleaner older initTime).1,
                  Except.error GoErr.notInitialized)) := by
  rcases share with _ | s
  · refine ⟨by simp [New], by intro h; simp [New] at h, fun _ => ⟨rfl, ?_⟩⟩
    exact get_of_len_zero HashQ.zero t1 t2 rfl
  · by_cases hsz : size < 1
    · refine ⟨?_, ?_, fun _ => ?_⟩
      · simp [New, hsz]
      · intro h; simp [New, hsz] at h
      · constructor
        · simp [New, hsz]
        · have h1 : (New (some s) size spch cleaner older initTime).1
              = (HashQ.zero : HashQ σ) := by simp [New, hsz]
          rw [h1]
          exact get_of_len_zero HashQ.zero t1 t2 rfl
    · by_cases hsp : spch < 1
      · refine ⟨?_, ?_, fun _ => ?_⟩
        · simp [New, hsz, hsp]
        · intro h; simp [New, hsz, hsp] at h
        · constructor
          · simp [New, hsz, hsp]
          · have h1 : (New (some s) size spch cleaner older initTime).1
                = (HashQ.zero : HashQ σ) := by simp [New, hsz, hsp]
            rw [h1]
            exact get_of_len_zero HashQ.zero t1 t2 rfl
      · refine ⟨?_, fun _ => ⟨?_, ?_⟩, ?_⟩
        · simp [New, hsz, hsp]; omega
        · simp [New, hsz, hsp]; omega
        · intro r hr
          simp [New, hsz, hsp] at hr
          exact hr.2
        · intro h
          exact absurd (by simp [New, hsz, hsp]) h

/-- C3 witness: the theorem applied to a valid and to an invalid input. -/
theorem C3_witness :
    ((New (some ()) 2 5 100 50 7).2 = none
      ∧ (((New (some ()) 2 5 100 50 7).1.sharedMap.length : Int) = 2))
    ∧ ((New (some ()) 0 5 100 50 7).1 = HashQ.zero
      ∧ Get (some (New (some ()) 0 5 100 50 7).1) 1 2 =
          some (some (New (some ()) 0 5 100 50 7).1,
                Except.error GoErr.notInitialized)) := by
  have hOk := C3_new_validation (some ()) 2 5 100 50 7 1 2
  have hBad := C3_new_validation (some ()) 0 5 100 50 7 1 2
  refine ⟨⟨?_, ?_⟩, ?_⟩
  · exact hOk.1.mpr ⟨by decide, by decide, by decide⟩
  · exact (hOk.2.1 (hOk.1.mpr ⟨by decide, by decide, by decide⟩)).1
  · exact hBad.2.2 (by decide)

/-! Characterizations of genHash. cand t1 stands for the recalibration
    candidate (lastObservation - windowStart) / observationCount computed
    after the increment. -/

theorem genHash_eq_recal (hq : HashQ σ) (t1 t2 : Int)
    (hsp : hq.curSpeed.speedCheck ≠ 0)
    (hb : (hq.curSpeed.Sum + 1) % hq.curSpeed.speedCheck = 1)
    (hf : Int.tdiv (t1 - hq.curSpeed.Start) ((hq.curSpeed.Sum : Int) + 1) ≠ 0) :
    hq.genHash t1 t2 =
      (if hq.maxShared = 0 then none
       else some
         ({ hq with curSpeed :=
              { Sum := hq.curSpeed.Sum + 1, Start := hq.curSpeed.Start,
                Last := t1,
                incomeFreq :=
                  Int.tdiv (t1 - hq.curSpeed.Start) ((hq.curSpeed.Sum : Int) + 1),
                speedCheck := hq.curSpeed.speedCheck } },
          Int.tmod
            (Int.tdiv t2
              (Int.tdiv (t1 - hq.curSpeed.Start) ((hq.curSpeed.Sum : Int) + 1)))
            hq.maxShared)) := by
  simp [HashQ.genHash, Speed.inc, Speed.Check, Speed.Freq, hsp, hb, hf,
    Nat.cast_add_one_ne_zero]

theorem genHash_eq_norecal (hq : HashQ σ) (t1 t2 : Int)
    (hsp : hq.curSpeed.speedCheck ≠ 0)
    (hnb : ¬ ((hq.curSpeed.Sum + 1) % hq.curSpeed.speedCheck = 1)
           ∨ Int.tdiv (t1 - hq.curSpeed.Start) ((hq.curSpeed.Sum : Int) + 1) = 0) :
    hq.genHash t1 t2 =
      (if hq.curSpeed.incomeFreq = 0 ∨ hq.maxShared = 0 then none
       else some
         ({ hq with curSpeed := hq.curSpeed.inc t1 },
          Int.tmod (Int.tdiv t2 hq.curSpeed.incomeFreq) hq.maxShared)) := by
  rcases hnb with hnb | hf
  · simp [HashQ.genHash, Speed.inc, Speed.Check, Speed.Freq, hsp, hnb,
      Nat.cast_add_one_ne_zero]
  · by_cases hb : (hq.curSpeed.Sum + 1) % hq.curSpeed.speedCheck = 1
    · simp [HashQ.genHash, Speed.inc, Speed.Check, Speed.Freq, hsp, hb, hf,
    Nat.cast_add_one_ne_zero]
    · simp [HashQ.genHash, Speed.inc, Speed.Check, Speed.Freq, hsp, hb,
      Nat.cast_add_one_ne_zero]

theorem genHash_some_elim (hq : HashQ σ) (t1 t2 : Int) (hq1 : HashQ σ)
    (idx : Int) (h : hq.genHash t1 t2 = some (hq1, idx)) :
    hq1.sharedMap = hq.sharedMap
    ∧ hq1.maxShared = hq.maxShared
    ∧ hq.maxShared ≠ 0
    ∧ hq1.curSpeed.incomeFreq ≠ 0
    ∧ idx = Int.tmod (Int.tdiv t2 hq1.curSpeed.incomeFreq) hq.maxShared
    ∧ (hq1.curSpeed.incomeFreq = hq.curSpeed.incomeFreq
       ∨ hq1.curSpeed.incomeFreq =
           Int.tdiv (t1 - hq.curSpeed.Start) ((hq.curSpeed.Sum : Int) + 1)) := by
  by_cases hsp : hq.curSpeed.speedCheck = 0
  · exact absurd h (by simp [HashQ.genHash, Speed.inc, Speed.Check, hsp])
  · by_cases hb : (hq.curSpeed.Sum + 1) % hq.curSpeed.speedCheck = 1
      ∧ Int.tdiv (t1 - hq.curSpeed.Start) ((hq.curSpeed.Sum : Int) + 1) ≠ 0
    · rw [genHash_eq_recal hq t1 t2 hsp hb.1 hb.2] at h
      by_cases hm : hq.maxShared = 0
      · exact absurd h (by simp [hm])
      · rw [if_neg hm, Option.some_inj, Prod.ext_iff] at h
        obtain ⟨hA, hB⟩ := h
        subst hA
        exact ⟨rfl, rfl, hm, hb.2, hB.symm, Or.inr rfl⟩
    · rw [not_and_or, not_not] at hb
      rw [genHash_eq_norecal hq t1 t2 hsp hb] at h
      by_cases hz : hq.curSpeed.incomeFreq = 0 ∨ hq.maxShared = 0
      · exact absurd h (by simp [hz])
      · rw [if_neg hz, Option.some_inj, Prod.ext_iff] at h
        obtain ⟨hA, hB⟩ := h
        subst hA
        push_neg at hz
        exact ⟨rfl, rfl, hz.2, hz.1, hB.symm, Or.inl rfl⟩

/-- C4: Get returns the not-initialized error exactly when the receiver is
    nil or the pool has zero slots; otherwise (when genHash yields an index
    within bounds) it returns, without error, the already-existing slot at
    that index and leaves the slot array unchanged: no allocation. -/
theorem C4_get_slot (hq : HashQ σ) (t1 t2 : Int) :
    (Get (none : Option (HashQ σ)) t1 t2 =
      some (none, Except.error GoErr.notInitialized))
    ∧ (hq.sharedMap = [] → Get (some hq) t1 t2 =
        some (some hq, Except.error GoErr.notInitialized))
    ∧ (∀ st e, Get (some hq) t1 t2 = some (st, Except.error e) →
        hq.sharedMap = [] ∧ e = GoErr.notInitialized)
    ∧ (∀ hq1 idx (hb : 0 ≤ idx ∧ idx.toNat < hq1.sharedMap.length),
        hq.sharedMap ≠ [] → hq.genHash t1 t2 = some (hq1, idx) →
        Get (some hq) t1 t2 =
          some (some hq1, Except.ok (hq1.sharedMap.get ⟨idx.toNat, hb.2⟩))
        ∧ hq1.sharedMap = hq.sharedMap) := by
  refine ⟨by simp [Get], fun h => get_of_len_zero hq t1 t2 h, ?_, ?_⟩
  · intro st e h
    by_cases hlen : hq.Len = 0
    · rw [get_of_len_zero hq t1 t2 (List.length_eq_zero.mp hlen)] at h
      rw [Option.some_inj, Prod.ext_iff] at h
      obtain ⟨-, h2⟩ := h
      exact ⟨List.length_eq_zero.mp hlen, (Except.error.injEq .. ▸ h2.symm)⟩
    · exfalso
      rw [Get, if_neg hlen] at h
      cases hg : hq.genHash t1 t2 with
      | none => rw [hg] at h; exact Option.noConfusion h
      | some r =>
        obtain ⟨hq1, idx⟩ := r
        rw [hg] at h
        simp only at h
        by_cases hb : 0 ≤ idx ∧ idx.toNat < hq1.sharedMap.length
        · rw [dif_pos hb, Option.some_inj, Prod.ext_iff] at h
          exact Except.noConfusion h.2
        · rw [dif_neg hb] at h
          exact Option.noConfusion h
  · intro hq1 idx hb hne hg
    have hlen : ¬ hq.Len = 0 := fun hz => hne (List.length_eq_zero.mp hz)
    constructor
    · rw [Get, if_neg hlen, hg]
      simp only
      rw [dif_pos hb]
    · exact (genHash_some_elim hq t1 t2 hq1 idx hg).1

/-- A freshly constructed demonstration pool of two slots. -/
def hqDemo : HashQ Unit := (New (some ()) 2 5 100 50 0).1

/-- The demonstration pool after one genHash step at times 0 and 3000000. -/
def hqDemo1 : HashQ Unit :=
  { hqDemo with curSpeed :=
      { Sum := 1, Start := 0, Last := 0, incomeFreq := 1000000,
        speedCheck := 5 } }

/-- C4 witness: the freshly constructed two-slot pool, queried once. -/
theorem C4_witness :
    Get (some hqDemo) 0 3000000 =
      some (some hqDemo1,
            Except.ok { Pt := some (), active := false, openFired := false,
                        modified := 0 })
    ∧ hqDemo1.sharedMap = hqDemo.sharedMap := by
  have h := (C4_get_slot hqDemo 0 3000000).2.2.2 hqDemo1 1
    (by decide) (by decide) (by decide)
  refine ⟨?_, h.2⟩
  rw [h.1]
  rfl

theorem cleanForcedList_eq (emptyPt : Option σ) (older : Int) (forced : Bool)
    (now : Int) (l : List (Resource σ))
    (h : ∀ res ∈ l,
        res.active = true ∧ (forced = true ∨ now - res.modified > older) →
        res.Pt ≠ none) :
    cleanForcedList emptyPt older forced now l =
      some
        (l.map (fun res =>
           if res.active = true ∧ (forced = true ∨ now - res.modified > older)
           then { Pt := emptyPt, active := false, openFired := false,
                  modified := now }
           else res),
         l.filterMap (fun res =>
           if res.active = true ∧ (forced = true ∨ now - res.modified > older)
           then res.Pt else none)) := by
  induction l with
  | nil => rfl
  | cons res rest ih =>
    have hres := h res (List.mem_cons_self res rest)
    have hrest := fun r hr => h r (List.mem_cons_of_mem res hr)
    by_cases hc : res.active = true ∧ (forced = true ∨ now - res.modified > older)
    · obtain ⟨p, hp⟩ := Option.ne_none_iff_exists'.mp (hres hc)
      simp [cleanForcedList, ih hrest, hc, Resource.cleanRes, hp,
        List.filterMap_cons]
    · simp [cleanForcedList, ih hrest, hc, List.filterMap_cons]

theorem cleanList_eq_forced_false (emptyPt : Option σ) (older now : Int)
    (l : List (Resource σ)) :
    cleanList emptyPt older now l = cleanForcedList emptyPt older false now l := by
  induction l with
  | nil => rfl
  | cons res rest ih =>
    simp only [cleanList, cleanForcedList, ih, Bool.false_eq_true,
      false_or]

/-- C5. The code under src has no forced flag on the sweep; the variant whose
    Clean method takes one is only called by the repository tests, so the
    forced behaviour is modelled from the spec as CleanForced. Provided every
    slot due for eviction holds a non-nil handle (otherwise the eviction
    panics calling Close on a nil interface), the sweep returns and evicts
    exactly the slots that are active and (forced, or idle longer than
    olderPeriod): each eviction invokes Close on the current handle (the
    recorded events, in slot order), resets the handle to the template,
    clears active, resets the one-time trigger and sets the modified stamp
    to now; every other slot and every other pool field is untouched, and
    the in-source Clean coincides with CleanForced at forced = false. -/
theorem C5_clean_evicts_idle (hq : HashQ σ) (forced : Bool) (now : Int)
    (h : ∀ res ∈ hq.sharedMap,
        res.active = true ∧ (forced = true ∨ now - res.modified > hq.olderPeriod) →
        res.Pt ≠ none) :
    hq.CleanForced forced now =
      some
        ({ hq with sharedMap := hq.sharedMap.map (fun res =>
             if res.active = true
                ∧ (forced = true ∨ now - res.modified > hq.olderPeriod)
             then { Pt := hq.emptyPt, active := false, openFired := false,
                    modified := now }
             else res) },
         hq.sharedMap.filterMap (fun res =>
           if res.active = true
              ∧ (forced = true ∨ now - res.modified > hq.olderPeriod)
           then res.Pt else none))
    ∧ hq.CleanSweep now = hq.CleanForced false now := by
  constructor
  · rw [HashQ.CleanForced,
      cleanForcedList_eq hq.emptyPt hq.olderPeriod forced now hq.sharedMap h]
  · rw [HashQ.CleanSweep, HashQ.CleanForced, cleanList_eq_forced_false]

/-- The pool of the C5 witness: a stale active slot, an inactive slot and a
    recently touched active slot, idle threshold 50, swept at time 100. -/
def hqC5 : HashQ Unit :=
  { sharedMap :=
      [ { Pt := some (), active := true, openFired := true, modified := 0 },
        { Pt := some (), active := false, openFired := false, modified := 0 },
        { Pt := some (), active := true, openFired := true, modified := 90 } ],
    emptyPt := some (), maxShared := 3, cleanPeriod := 100, olderPeriod := 50,
    curSpeed := { Sum := 0, Start := 0, Last := 0, incomeFreq := 1000000,
                  speedCheck := 5 } }

/-- C5 witness: a non-forced sweep of hqC5 at time 100 evicts exactly the
    stale active slot (one Close event), leaving the other two untouched,
    and agrees with the in-source Clean. -/
theorem C5_witness :
    hqC5.CleanForced false 100 =
      some
        ({ hqC5 with sharedMap :=
             [ { Pt := some (), active := false, openFired := false,
                 modified := 100 },
               { Pt := some (), active := false, openFired := false,
                 modified := 0 },
               { Pt := some (), active := true, openFired := true,
                 modified := 90 } ] },
         [()])
    ∧ hqC5.CleanSweep 100 = hqC5.CleanForced false 100 := by
  have h := C5_clean_evicts_idle hqC5 false 100 (by decide)
  refine ⟨?_, h.2⟩
  rw [h.1]
  decide

/-- C6: on every Get (genHash) with a valid stride, after the increment a
    recalibration attempt happens exactly when observationCount mod stride
    equals one; the candidate is (lastObservation - windowStart) divided by
    observationCount, and it overwrites the estimate only when nonzero. -/
theorem C6_recalibration_stride (hq : HashQ σ) (t1 t2 : Int)
    (hsp : hq.curSpeed.speedCheck ≠ 0)
    (hfreq : hq.curSpeed.incomeFreq ≠ 0)
    (hmax : hq.maxShared ≠ 0) :
    hq.genHash t1 t2 =
      some ({ hq with curSpeed :=
        { Sum := hq.curSpeed.Sum + 1,
          Start := hq.curSpeed.Start,
          Last := t1,
          incomeFreq :=
            if (hq.curSpeed.Sum + 1) % hq.curSpeed.speedCheck = 1
               ∧ Int.tdiv (t1 - hq.curSpeed.Start)
                   ((hq.curSpeed.Sum : Int) + 1) ≠ 0
            then Int.tdiv (t1 - hq.curSpeed.Start)
                   ((hq.curSpeed.Sum : Int) + 1)
            else hq.curSpeed.incomeFreq,
          speedCheck := hq.curSpeed.speedCheck } },
        Int.tmod
          (Int.tdiv t2
            (if (hq.curSpeed.Sum + 1) % hq.curSpeed.speedCheck = 1
                ∧ Int.tdiv (t1 - hq.curSpeed.Start)
                    ((hq.curSpeed.Sum : Int) + 1) ≠ 0
             then Int.tdiv (t1 - hq.curSpeed.Start)
                    ((hq.curSpeed.Sum : Int) + 1)
             else hq.curSpeed.incomeFreq))
          hq.maxShared) := by
  by_cases hb : (hq.curSpeed.Sum + 1) % hq.curSpeed.speedCheck = 1
      ∧ Int.tdiv (t1 - hq.curSpeed.Start) ((hq.curSpeed.Sum : Int) + 1) ≠ 0
  · rw [genHash_eq_recal hq t1 t2 hsp hb.1 hb.2, if_neg hmax, if_pos hb]
  · have hnr := hb
    rw [not_and_or, not_not] at hnr
    rw [genHash_eq_norecal hq t1 t2 hsp hnr, if_neg (by tauto), if_neg hb]
    simp [Speed.inc]

/-- C6 witness: the fresh two-slot pool queried at time 10 recalibrates on
    its first call (count 1 mod stride 5 = 1) with candidate 10, and the
    index for time 25 is (25 tdiv 10) tmod 2 = 0. -/
theorem C6_witness :
    hqDemo.genHash 10 25 =
      some ({ hqDemo with curSpeed :=
        { Sum := 1, Start := 0, Last := 10, incomeFreq := 10,
          speedCheck := 5 } }, 0) := by
  have h := C6_recalibration_stride hqDemo 10 25 (by decide) (by decide)
    (by decide)
  rw [h]
  decide

/-- C7: the estimate incomeFreq is seeded with the nonzero constant
    incomeFreqTotal by New, is nonzero in the pool genHash returns, and a
    pool whose estimate is nonzero (with a valid stride and a nonzero slot
    count) never reaches the undefined division: genHash never panics. -/
theorem C7_income_freq_never_zero (σ : Type) :
    (∀ (share : Option σ) (size : Int) (spch : Nat) (c o t : Int),
        (New share size spch c o t).2 = none →
        (New share size spch c o t).1.curSpeed.incomeFreq = incomeFreqTotal)
    ∧ incomeFreqTotal ≠ 0
    ∧ (∀ (hq : HashQ σ) (t1 t2 : Int) (hq1 : HashQ σ) (idx : Int),
        hq.genHash t1 t2 = some (hq1, idx) →
        hq1.curSpeed.incomeFreq ≠ 0)
    ∧ (∀ (hq : HashQ σ) (t1 t2 : Int),
        hq.curSpeed.speedCheck ≠ 0 → hq.curSpeed.incomeFreq ≠ 0 →
        hq.maxShared ≠ 0 → hq.genHash t1 t2 ≠ none) := by
  refine ⟨?_, by decide, ?_, ?_⟩
  · intro share size spch c o t h
    rcases share with _ | s
    · simp [New] at h
    · by_cases hsz : size < 1
      · simp [New, hsz] at h
      · by_cases hspc : spch < 1
        · simp [New, hsz, hspc] at h
        · simp [New, hsz, hspc]
  · intro hq t1 t2 hq1 idx h
    exact (genHash_some_elim hq t1 t2 hq1 idx h).2.2.2.1
  · intro hq t1 t2 hsp hfreq hmax
    by_cases hb : (hq.curSpeed.Sum + 1) % hq.curSpeed.speedCheck = 1
        ∧ Int.tdiv (t1 - hq.curSpeed.Start) ((hq.curSpeed.Sum : Int) + 1) ≠ 0
    · rw [genHash_eq_recal hq t1 t2 hsp hb.1 hb.2, if_neg hmax]
      exact Option.noConfusion
    · have hnr := hb
      rw [not_and_or, not_not] at hnr
      rw [genHash_eq_norecal hq t1 t2 hsp hnr, if_neg (by tauto)]
      exact Option.noConfusion

/-- C7 witness: the theorem at the fresh two-slot pool and its first step. -/
theorem C7_witness :
    (New (some ()) 2 5 100 50 0).1.curSpeed.incomeFreq = incomeFreqTotal
    ∧ hqDemo1.curSpeed.incomeFreq ≠ 0
    ∧ hqDemo.genHash 0 3000000 ≠ none := by
  have h := C7_income_freq_never_zero Unit
  exact ⟨h.1 (some ()) 2 5 100 50 0 (by decide),
         h.2.2.1 hqDemo 0 3000000 hqDemo1 1 (by decide),
         h.2.2.2 hqDemo 0 3000000 (by decide) (by decide) (by decide)⟩

/-- C8 counterexample. The fresh two-slot pool still carries the seeded
    default estimate, yet its first Get at time 3000000 nanoseconds maps to
    slot index 1, not 0, and the step leaves the estimate at the default:
    the seeded default (one millisecond) is far from large enough to route
    every call to slot 0. -/
theorem C8_counterexample :
    hqDemo.curSpeed.incomeFreq = incomeFreqTotal
    ∧ 1 ≤ hqDemo.maxShared
    ∧ hqDemo.genHash 0 3000000 = some (hqDemo1, 1)
    ∧ hqDemo1.curSpeed.incomeFreq = incomeFreqTotal
    ∧ (1 : Int) ≠ 0 := by decide

/-- C8 (amended): while the estimate still holds the seeded default and the
    call does not overwrite it (no recalibration attempt is due, or the
    candidate is zero), genHash maps the request to slot index
    (now / 1000000) mod maxShared, which is zero exactly when maxShared
    divides now / 1000000 — not for every call time. -/
theorem C8_default_routes_by_time (hq : HashQ σ) (t1 t2 : Int)
    (hseed : hq.curSpeed.incomeFreq = incomeFreqTotal)
    (hsp : hq.curSpeed.speedCheck ≠ 0)
    (hnr : ¬ ((hq.curSpeed.Sum + 1) % hq.curSpeed.speedCheck = 1)
          ∨ Int.tdiv (t1 - hq.curSpeed.Start) ((hq.curSpeed.Sum : Int) + 1) = 0)
    (hmax : hq.maxShared ≠ 0) :
    hq.genHash t1 t2 =
      some ({ hq with curSpeed := hq.curSpeed.inc t1 },
            Int.tmod (Int.tdiv t2 incomeFreqTotal) hq.maxShared)
    ∧ ({ hq with curSpeed := hq.curSpeed.inc t1 } : HashQ σ).curSpeed.incomeFreq
        = incomeFreqTotal := by
  constructor
  · rw [genHash_eq_norecal hq t1 t2 hsp hnr, hseed,
      if_neg (by rw [incomeFreqTotal]; omega)]
  · simpa [Speed.inc] using hseed

/-- C8 witness: the amended theorem at the fresh pool, time 3000000. -/
theorem C8_witness :
    hqDemo.genHash 0 3000000 =
      some ({ hqDemo with curSpeed := hqDemo.curSpeed.inc 0 },
            Int.tmod (Int.tdiv 3000000 incomeFreqTotal) hqDemo.maxShared) := by
  exact (C8_default_routes_by_time hqDemo 0 3000000 (by decide) (by decide)
    (Or.inr (by decide)) (by decide)).1

/-- The pool of the C9 counterexample: positive estimate 5, but a window
    start in the future of the first observation. -/
def hqC9 : HashQ Unit :=
  { sharedMap := List.replicate 3 freshRes, emptyPt := some (),
    maxShared := 3, cleanPeriod := 100, olderPeriod := 50,
    curSpeed := { Sum := 0, Start := 4, Last := 0, incomeFreq := 5,
                  speedCheck := 5 } }

/-- The C9 pool after the step that recalibrates to a negative estimate. -/
def hqC9a : HashQ Unit :=
  { hqC9 with curSpeed := { Sum := 1, Start := 4, Last := 0, incomeFreq := -4,
                            speedCheck := 5 } }

/-- C9 counterexample. The claimed hypotheses hold: the estimate is positive
    (5) and the call times (0 and 9) are nonnegative; yet the first call
    recalibrates the estimate to (0 - 4) / 1 = -4 and genHash returns index
    (9 tdiv -4) tmod 3 = -2, which is out of bounds. -/
theorem C9_counterexample :
    0 < hqC9.curSpeed.incomeFreq
    ∧ (0 : Int) ≤ 0 ∧ (0 : Int) ≤ 9
    ∧ hqC9.genHash 0 9 = some (hqC9a, -2)
    ∧ ¬ (0 ≤ (-2 : Int)) := by decide

/-- C9 (amended): if additionally the window start is at or before the
    observation time and maxShared is at least one — as in any pool built by
    New and queried with monotone clock times — the index genHash returns is
    within bounds: 0 ≤ idx < maxShared, and when maxShared equals the slot
    count the slot-array access in Get is in range. -/
theorem C9_index_in_bounds (hq : HashQ σ) (t1 t2 : Int) (hq1 : HashQ σ)
    (idx : Int)
    (hfreq : 0 < hq.curSpeed.incomeFreq)
    (hstart : hq.curSpeed.Start ≤ t1)
    (ht2 : 0 ≤ t2)
    (hmax : 1 ≤ hq.maxShared)
    (hg : hq.genHash t1 t2 = some (hq1, idx)) :
    0 ≤ idx ∧ idx < hq.maxShared
    ∧ (hq.maxShared = (hq.sharedMap.length : Int) →
        idx.toNat < hq.sharedMap.length) := by
  obtain ⟨hsm, hms, hm0, hf0, hidx, hcase⟩ := genHash_some_elim hq t1 t2 hq1 idx hg
  have hfpos : 0 < hq1.curSpeed.incomeFreq := by
    rcases hcase with h | h
    · rw [h]; exact hfreq
    · have hnn : 0 ≤ Int.tdiv (t1 - hq.curSpeed.Start)
          ((hq.curSpeed.Sum : Int) + 1) :=
        Int.tdiv_nonneg (by omega) (by positivity)
      rw [h] at hf0 ⊢
      omega
  subst hidx
  have hdn : 0 ≤ Int.tdiv t2 hq1.curSpeed.incomeFreq :=
    Int.tdiv_nonneg ht2 (le_of_lt hfpos)
  have h1 : 0 ≤ Int.tmod (Int.tdiv t2 hq1.curSpeed.incomeFreq) hq.maxShared :=
    Int.tmod_nonneg _ hdn
  have h2 : Int.tmod (Int.tdiv t2 hq1.curSpeed.incomeFreq) hq.maxShared
      < hq.maxShared :=
    Int.tmod_lt_of_pos _ (by omega)
  exact ⟨h1, h2, fun hlen => by omega⟩

/-- C9 witness: the amended theorem at the fresh two-slot pool. -/
theorem C9_witness :
    (0 : Int) ≤ 1 ∧ (1 : Int) < hqDemo.maxShared
    ∧ (1 : Int).toNat < hqDemo.sharedMap.length := by
  have h := C9_index_in_bounds hqDemo 0 3000000 hqDemo1 1 (by decide)
    (by decide) (by decide) (by decide) (by decide)
  exact ⟨h.1, h.2.1, h.2.2 (by decide)⟩

/-- C10: Freq divides by int64(Sum) with no zero guard, so a direct call
    with Sum = 0 divides by zero (the panic, modelled as none); on the
    genHash path Freq is only ever applied to a Speed that inc has just
    incremented, whose divisor Sum + 1 is at least one, so the division is
    defined there and equals the truncated quotient. -/
theorem C10_freq_no_guard (s : Speed) (t : Int) :
    (s.Sum = 0 → s.Freq = none)
    ∧ (s.inc t).Freq =
        some (Int.tdiv (t - s.Start) ((s.Sum : Int) + 1)) := by
  constructor
  · intro h
    simp [Speed.Freq, h]
  · simp [Speed.Freq, Speed.inc, Nat.cast_add_one_ne_zero]

/-- C10 witness: a zero-count Speed panics in Freq; after inc it divides. -/
theorem C10_witness :
    ({ Sum := 0, Start := 0, Last := 7, incomeFreq := 3,
       speedCheck := 5 } : Speed).Freq = none
    ∧ (({ Sum := 0, Start := 0, Last := 0, incomeFreq := 3,
          speedCheck := 5 } : Speed).inc 7).Freq = some 7 := by
  have h1 := C10_freq_no_guard
    ({ Sum := 0, Start := 0, Last := 7, incomeFreq := 3,
       speedCheck := 5 } : Speed) 7
  have h2 := C10_freq_no_guard
    ({ Sum := 0, Start := 0, Last := 0, incomeFreq := 3,
       speedCheck := 5 } : Speed) 7
  exact ⟨h1.1 rfl, by rw [h2.2]; decide⟩

end Hashq
